import Mathlib

/-!
Verification of the resilient-ingestion core of the graphiti-knowledge-layer
repository, as a shallow embedding in Lean 4.

The embedding follows the Python sources:
  * `src/utils/retry.py`           — retry policy (`is_retryable_exception`, `retry_async`)
  * `src/utils/chuking_utils/sliding_chunk_text.py` — the chunker
  * `src/utils/_default_persist_failure.py`         — the failure recorder
  * `src/utils/ingest_utils.py` and `src/utils/clause_ingest.py` — the episode loader

Python strings are modelled as `List Char`, float delays as exact rationals
(`ℚ`), `random.uniform(-a, a)` draws as an oracle stream of rationals, and the
external Graphiti client as outcome functions (each wrapped call either
returns or raises, which is all the loader observes).
-/

/-- Python strings, modelled as lists of characters. -/
abbrev Str := List Char

/-- Python `needle in haystack` substring test on strings. -/
def hasSubstr (needle : Str) : Str → Bool
  | [] => needle.isEmpty
  | c :: rest => needle.isPrefixOf (c :: rest) || hasSubstr needle rest

/-! ## Retry policy — src/utils/retry.py -/

/-- The case-insensitive substrings that `is_retryable_exception`
(src/utils/retry.py lines 25–36) looks for in the error text. -/
def retryKeywords : List Str :=
  ["rate limit", "rate_limited", "429", "quota", "resource_exhausted",
   "insufficient_quota", "too many requests"].map String.toList

/-- Embedding of `is_retryable_exception` (src/utils/retry.py lines 20–36):
`None` is not retryable; otherwise lower-case the message and test each known
substring. -/
def is_retryable_exception (exc : Option Str) : Bool :=
  match exc with
  | none => false
  | some msg => retryKeywords.any (fun k => hasSubstr k (msg.map Char.toLower))

/-- The keyword parameters of `retry_async` (src/utils/retry.py lines 39–46).
The Python floats are modelled as exact rationals. -/
structure RetryConfig where
  max_retries : ℕ
  initial_delay : ℚ
  max_delay : ℚ
  factor : ℚ
  jitter : ℚ

/-- One backoff sleep duration, computed exactly as in
src/utils/retry.py lines 66–71 for 1-indexed failure number `attempt`:
exponential base, clamp to `max_delay`, add the jitter draw
(`random.uniform(-jitter_amount, jitter_amount)` is modelled as
`jitter_amount * u` for an oracle value `u`), clamp below by `0` and above by
`max_delay`. -/
def backoff_sleep (cfg : RetryConfig) (attempt : ℕ) (u : ℚ) : ℚ :=
  let base := cfg.initial_delay * cfg.factor ^ (attempt - 1)
  let sleep1 := min base cfg.max_delay
  let jitter_amount := sleep1 * cfg.jitter
  let sleep2 := max 0 (sleep1 + jitter_amount * u)
  min sleep2 cfg.max_delay

/-- Observable outcome of one call of a `retry_async`-wrapped operation:
the returned value or raised error, the backoff sleeps performed (in order),
and how many times the underlying operation was invoked. -/
structure RunResult (α : Type) where
  result : Except Str α
  sleeps : List ℚ
  calls : ℕ

/-- The `while True` loop of `_wrapper` (src/utils/retry.py lines 55–79).
`f inv` is the outcome of the `inv`-th invocation (0-based) of the wrapped
operation, `u inv` the jitter oracle draw used after it fails.  `fuel` is the
number of retries still allowed (`max_retries` minus failures so far): the
source raises when `attempt > max_retries`, i.e. when `fuel` hits zero, or
when the error is not retryable. -/
def retryGo (cfg : RetryConfig) (f : ℕ → Except Str α) (u : ℕ → ℚ)
    (fuel inv : ℕ) (sleeps : List ℚ) : RunResult α :=
  match f inv with
  | Except.ok v => ⟨Except.ok v, sleeps, inv + 1⟩
  | Except.error e =>
    if is_retryable_exception (some e) then
      match fuel with
      | 0 => ⟨Except.error e, sleeps, inv + 1⟩
      | Nat.succ fuel' =>
        retryGo cfg f u fuel' (inv + 1)
          (sleeps ++ [backoff_sleep cfg (inv + 1) (u inv)])
    else ⟨Except.error e, sleeps, inv + 1⟩

/-- A full run of the `retry_async`-wrapped operation
(src/utils/retry.py lines 54–80): start at invocation 0 with no sleeps and
`max_retries` retries available. -/
def retryRun (cfg : RetryConfig) (f : ℕ → Except Str α) (u : ℕ → ℚ) :
    RunResult α :=
  retryGo cfg f u cfg.max_retries 0 []

theorem retryGo_of_ok {α : Type} (cfg : RetryConfig) (f : ℕ → Except Str α)
    (u : ℕ → ℚ) (fuel inv : ℕ) (sleeps : List ℚ) {v : α}
    (h : f inv = Except.ok v) :
    retryGo cfg f u fuel inv sleeps = ⟨Except.ok v, sleeps, inv + 1⟩ := by
  rw [retryGo, h]

theorem retryGo_of_fatal {α : Type} (cfg : RetryConfig) (f : ℕ → Except Str α)
    (u : ℕ → ℚ) (fuel inv : ℕ) (sleeps : List ℚ) {e : Str}
    (h : f inv = Except.error e)
    (hr : is_retryable_exception (some e) = false) :
    retryGo cfg f u fuel inv sleeps = ⟨Except.error e, sleeps, inv + 1⟩ := by
  rw [retryGo, h]
  simp [hr]

theorem retryGo_of_exhausted {α : Type} (cfg : RetryConfig)
    (f : ℕ → Except Str α) (u : ℕ → ℚ) (inv : ℕ) (sleeps : List ℚ) {e : Str}
    (h : f inv = Except.error e)
    (hr : is_retryable_exception (some e) = true) :
    retryGo cfg f u 0 inv sleeps = ⟨Except.error e, sleeps, inv + 1⟩ := by
  rw [retryGo, h]
  simp [hr]

theorem retryGo_of_retry {α : Type} (cfg : RetryConfig) (f : ℕ → Except Str α)
    (u : ℕ → ℚ) (fuel inv : ℕ) (sleeps : List ℚ) {e : Str}
    (h : f inv = Except.error e)
    (hr : is_retryable_exception (some e) = true) :
    retryGo cfg f u (fuel + 1) inv sleeps =
      retryGo cfg f u fuel (inv + 1)
        (sleeps ++ [backoff_sleep cfg (inv + 1) (u inv)]) := by
  rw [retryGo, h]
  simp [hr]

theorem backoff_sleep_nonneg (cfg : RetryConfig) (attempt : ℕ) (u : ℚ)
    (hd : 0 ≤ cfg.max_delay) : 0 ≤ backoff_sleep cfg attempt u := by
  unfold backoff_sleep
  exact le_min (le_max_left _ _) hd

theorem backoff_sleep_le (cfg : RetryConfig) (attempt : ℕ) (u : ℚ) :
    backoff_sleep cfg attempt u ≤ cfg.max_delay := by
  unfold backoff_sleep
  exact min_le_right _ _

theorem retryGo_ok_of_failures {α : Type} (cfg : RetryConfig)
    (f : ℕ → Except Str α) (u : ℕ → ℚ) (v : α) (hd : 0 ≤ cfg.max_delay) :
    ∀ (m inv fuel : ℕ) (acc : List ℚ), m ≤ fuel →
      (∀ k, k < m → ∃ e, f (inv + k) = Except.error e ∧
        is_retryable_exception (some e) = true) →
      f (inv + m) = Except.ok v →
      ∃ l, retryGo cfg f u fuel inv acc = ⟨Except.ok v, acc ++ l, inv + m + 1⟩ ∧
        l.length = m ∧ ∀ s ∈ l, 0 ≤ s ∧ s ≤ cfg.max_delay := by
  intro m
  induction m with
  | zero =>
    intro inv fuel acc _ _ hok
    simp only [Nat.add_zero] at hok
    exact ⟨[], by simp [retryGo_of_ok cfg f u fuel inv acc hok], rfl, by simp⟩
  | succ m ih =>
    intro inv fuel acc hfuel hfail hok
    obtain ⟨e, he, hre⟩ := hfail 0 (Nat.succ_pos m)
    simp only [Nat.add_zero] at he
    obtain ⟨fuel', rfl⟩ : ∃ fuel', fuel = fuel' + 1 := by
      cases fuel with
      | zero => exact absurd hfuel (by omega)
      | succ n => exact ⟨n, rfl⟩
    have hfail' : ∀ k, k < m → ∃ e, f (inv + 1 + k) = Except.error e ∧
        is_retryable_exception (some e) = true := by
      intro k hk
      have h1 := hfail (k + 1) (by omega)
      have h2 : inv + (k + 1) = inv + 1 + k := by omega
      rw [h2] at h1
      exact h1
    have hok' : f (inv + 1 + m) = Except.ok v := by
      have h2 : inv + 1 + m = inv + (m + 1) := by omega
      rw [h2]; exact hok
    obtain ⟨l, hrec, hlen, hbound⟩ :=
      ih (inv + 1) fuel' (acc ++ [backoff_sleep cfg (inv + 1) (u inv)])
        (by omega) hfail' hok'
    refine ⟨backoff_sleep cfg (inv + 1) (u inv) :: l, ?_, by simp [hlen], ?_⟩
    · rw [retryGo_of_retry cfg f u fuel' inv acc he hre, hrec]
      have h3 : inv + 1 + m + 1 = inv + (m + 1) + 1 := by omega
      rw [h3, List.append_assoc]
      rfl
    · intro s hs
      rcases List.mem_cons.mp hs with h | h
      · subst h
        exact ⟨backoff_sleep_nonneg cfg _ _ hd, backoff_sleep_le cfg _ _⟩
      · exact hbound s h

/-- Claim C5: if the operation raises a retryable error exactly `N` times with
`N` within the retry budget (`N < maxAttempts`, i.e. `N ≤ max_retries`) and
then succeeds, the wrapped operation returns the success value, invokes the
operation `N + 1` times, and performs exactly `N` backoff sleeps, each lying
within `[0, max_delay]`. -/
theorem retry_returns_success_after_transient_failures
    {α : Type} (cfg : RetryConfig) (f : ℕ → Except Str α) (u : ℕ → ℚ) (v : α)
    (N : ℕ)
    (hN : N ≤ cfg.max_retries)
    (hfail : ∀ k, k < N → ∃ e, f k = Except.error e ∧
      is_retryable_exception (some e) = true)
    (hok : f N = Except.ok v)
    (hd : 0 ≤ cfg.max_delay) :
    (retryRun cfg f u).result = Except.ok v ∧
    (retryRun cfg f u).sleeps.length = N ∧
    (retryRun cfg f u).calls = N + 1 ∧
    ∀ s ∈ (retryRun cfg f u).sleeps, 0 ≤ s ∧ s ≤ cfg.max_delay := by
  obtain ⟨l, hrun, hlen, hbound⟩ :=
    retryGo_ok_of_failures cfg f u v hd N 0 cfg.max_retries [] hN
      (by simpa using hfail) (by simpa using hok)
  unfold retryRun
  rw [hrun]
  exact ⟨rfl, by simpa using hlen, by simp, by simpa using hbound⟩

/-- Witness for C5: one retryable 429 failure, then success with value 37,
under `max_retries = 6`: one sleep, two invocations. -/
theorem retry_returns_success_after_transient_failures_witness :
    (retryRun ⟨6, 1, 30, 2, 0⟩
        (fun k => if k = 0 then Except.error ("429".toList) else Except.ok (37 : ℕ))
        (fun _ => 0)).result = Except.ok 37 ∧
    (retryRun ⟨6, 1, 30, 2, 0⟩
        (fun k => if k = 0 then Except.error ("429".toList) else Except.ok (37 : ℕ))
        (fun _ => 0)).sleeps.length = 1 ∧
    (retryRun ⟨6, 1, 30, 2, 0⟩
        (fun k => if k = 0 then Except.error ("429".toList) else Except.ok (37 : ℕ))
        (fun _ => 0)).calls = 2 := by
  have h := retry_returns_success_after_transient_failures
    ⟨6, 1, 30, 2, 0⟩
    (fun k => if k = 0 then Except.error ("429".toList) else Except.ok (37 : ℕ))
    (fun _ => 0) 37 1 (by decide)
    (fun k hk => by
      have hk0 : k = 0 := by omega
      subst hk0
      exact ⟨"429".toList, rfl, by decide⟩)
    rfl (by decide)
  exact ⟨h.1, h.2.1, h.2.2.1⟩

theorem retryGo_exhausts_all_failures {α : Type} (cfg : RetryConfig)
    (f : ℕ → Except Str α) (u : ℕ → ℚ) (errs : ℕ → Str)
    (hf : ∀ k, f k = Except.error (errs k))
    (hr : ∀ k, is_retryable_exception (some (errs k)) = true) :
    ∀ (fuel inv : ℕ) (acc : List ℚ),
      ∃ l, retryGo cfg f u fuel inv acc =
          ⟨Except.error (errs (inv + fuel)), acc ++ l, inv + fuel + 1⟩ ∧
        l.length = fuel := by
  intro fuel
  induction fuel with
  | zero =>
    intro inv acc
    exact ⟨[], by simp [retryGo_of_exhausted cfg f u inv acc (hf inv) (hr inv)],
      rfl⟩
  | succ fuel ih =>
    intro inv acc
    obtain ⟨l, hrec, hlen⟩ :=
      ih (inv + 1) (acc ++ [backoff_sleep cfg (inv + 1) (u inv)])
    refine ⟨backoff_sleep cfg (inv + 1) (u inv) :: l, ?_, by simp [hlen]⟩
    rw [retryGo_of_retry cfg f u fuel inv acc (hf inv) (hr inv), hrec]
    have h1 : inv + 1 + fuel = inv + (fuel + 1) := by omega
    rw [h1, List.append_assoc]
    rfl

/-- Counterexample for claim C6 as stated: with `max_retries = 1` (the spec
names this parameter `maxAttempts` and gives it the same default, 6, as the
code's `max_retries`) and an operation that always raises a retryable 429
error, the wrapped operation invokes the operation twice — one initial attempt
plus one retry — so the error propagates only after `max_retries + 1`
retryable failures, not after `max_retries` of them, and the operation is
invoked more than `max_retries` times. -/
theorem retry_exhaustion_counterexample :
    (retryRun ⟨1, 1, 30, 2, 0⟩
        (fun _ => (Except.error ("429".toList) : Except Str ℕ))
        (fun _ => 0)).calls = 2 ∧
    ¬ (retryRun ⟨1, 1, 30, 2, 0⟩
        (fun _ => (Except.error ("429".toList) : Except Str ℕ))
        (fun _ => 0)).calls ≤ 1 ∧
    (retryRun ⟨1, 1, 30, 2, 0⟩
        (fun _ => (Except.error ("429".toList) : Except Str ℕ))
        (fun _ => 0)).result = Except.error ("429".toList) := by
  refine ⟨by decide, by decide, by rfl⟩

/-- Claim C6 (amended): if every invocation raises a retryable error, the
wrapped operation raises the error of the last invocation after exactly
`max_retries + 1` retryable failures: the operation is invoked exactly
`max_retries + 1` times (one initial attempt plus `max_retries` retries) with
`max_retries` backoff sleeps in between. -/
theorem retry_raises_last_error_after_exhaustion
    {α : Type} (cfg : RetryConfig) (f : ℕ → Except Str α) (u : ℕ → ℚ)
    (errs : ℕ → Str)
    (hf : ∀ k, f k = Except.error (errs k))
    (hr : ∀ k, is_retryable_exception (some (errs k)) = true) :
    (retryRun cfg f u).result = Except.error (errs cfg.max_retries) ∧
    (retryRun cfg f u).calls = cfg.max_retries + 1 ∧
    (retryRun cfg f u).sleeps.length = cfg.max_retries := by
  obtain ⟨l, hrun, hlen⟩ :=
    retryGo_exhausts_all_failures cfg f u errs hf hr cfg.max_retries 0 []
  unfold retryRun
  rw [hrun]
  exact ⟨by simp, by simp, by simpa using hlen⟩

/-- Witness for the amended C6: an always-429 operation under
`max_retries = 2` is invoked 3 times, sleeps twice, and raises the 429. -/
theorem retry_raises_last_error_after_exhaustion_witness :
    (retryRun ⟨2, 1, 30, 2, 0⟩
        (fun _ => (Except.error ("429".toList) : Except Str ℕ))
        (fun _ => 0)).result = Except.error ("429".toList) ∧
    (retryRun ⟨2, 1, 30, 2, 0⟩
        (fun _ => (Except.error ("429".toList) : Except Str ℕ))
        (fun _ => 0)).calls = 3 ∧
    (retryRun ⟨2, 1, 30, 2, 0⟩
        (fun _ => (Except.error ("429".toList) : Except Str ℕ))
        (fun _ => 0)).sleeps.length = 2 := by
  have h429 : is_retryable_exception (some ("429".toList)) = true := by decide
  exact retry_raises_last_error_after_exhaustion ⟨2, 1, 30, 2, 0⟩
    (fun _ => (Except.error ("429".toList) : Except Str ℕ))
    (fun _ => 0) (fun _ => "429".toList) (fun _ => rfl) (fun _ => h429)

/-- Claim C7: an operation whose first invocation raises a fatal
(non-retryable) error makes the wrapped operation raise that same error
immediately: zero sleeps and exactly one invocation of the operation. -/
theorem retry_fatal_raises_immediately
    {α : Type} (cfg : RetryConfig) (f : ℕ → Except Str α) (u : ℕ → ℚ)
    (e : Str)
    (h0 : f 0 = Except.error e)
    (hfatal : is_retryable_exception (some e) = false) :
    retryRun cfg f u = ⟨Except.error e, [], 1⟩ := by
  unfold retryRun
  exact retryGo_of_fatal cfg f u cfg.max_retries 0 [] h0 hfatal

/-- Witness for C7: a fatal error message propagates at once — no sleeps, one
invocation — under the module's default configuration
(`max_retries=6, initial_delay=0.5, max_delay=30, factor=2, jitter=0.3`). -/
theorem retry_fatal_raises_immediately_witness :
    retryRun ⟨6, 1/2, 30, 2, 3/10⟩
        (fun _ => (Except.error ("boom".toList) : Except Str ℕ))
        (fun _ => 0) = ⟨Except.error ("boom".toList), [], 1⟩ :=
  retry_fatal_raises_immediately ⟨6, 1/2, 30, 2, 3/10⟩
    (fun _ => (Except.error ("boom".toList) : Except Str ℕ))
    (fun _ => 0) ("boom".toList) rfl (by decide)

/-! ## Chunker — src/utils/chuking_utils/sliding_chunk_text.py -/

/-- Whitespace as used by Python `str.isspace`, `str.strip` and the regex
class `\s`, restricted to the ASCII characters (space, tab, newline, carriage
return, vertical tab, form feed). -/
def pyIsSpace (c : Char) : Bool :=
  c = ' ' || c = '\t' || c = '\n' || c = '\r' ||
  c = Char.ofNat 11 || c = Char.ofNat 12

/-- Python `str.strip()`: remove leading and trailing whitespace. -/
def pyStrip (s : Str) : Str :=
  List.rdropWhile pyIsSpace (List.dropWhile pyIsSpace s)

/-- Python `text[lo:hi]` for `0 ≤ lo ≤ hi`. -/
def pySlice (t : Str) (lo hi : ℕ) : Str := (t.drop lo).take (hi - lo)

/-- Helper for `pyRfind`: scan indices `lo + k - 1, …, lo` downwards for the
character `c`, returning the largest matching index or `-1`. -/
def rfindGo (t : Str) (c : Char) (lo : ℕ) : ℕ → Int
  | 0 => -1
  | k + 1 => if t.get? (lo + k) = some c then ((lo + k : ℕ) : Int) else rfindGo t c lo k

/-- Python `text.rfind(c, lo, hi)`: the largest index in `[lo, hi)` holding
character `c`, or `-1` if there is none. -/
def pyRfind (t : Str) (c : Char) (lo hi : ℕ) : Int := rfindGo t c lo (hi - lo)

/-- Length of the maximal whitespace run at the head of `s`
(the greedy `\s+` of `_SENTENCE_END_RE`). -/
def wsRun : Str → ℕ
  | [] => 0
  | c :: r => if pyIsSpace c then wsRun r + 1 else 0

/-- Length of the maximal newline run at the head of `s`
(the greedy `\n+` of `_SENTENCE_END_RE`). -/
def nlRun : Str → ℕ
  | [] => 0
  | c :: r => if c = '\n' then nlRun r + 1 else 0

/-- Length of the match of `_SENTENCE_END_RE` = `[.!?]\s+|\n+`
(src/utils/chuking_utils/sliding_chunk_text.py line 11) anchored at the head
of `s`, if any.  Alternatives are tried left to right as in Python `re`. -/
def sentMatchLen (s : Str) : Option ℕ :=
  match s with
  | [] => none
  | c :: r =>
    if (c = '.' || c = '!' || c = '?') && wsRun r != 0 then some (1 + wsRun r)
    else if c = '\n' then some (1 + nlRun r)
    else none

/-- `re.search` of `_SENTENCE_END_RE`: the end position (`m.end()`) of the
leftmost match in `s`, if any. -/
def sentSearchEnd : Str → ℕ → Option ℕ
  | [], _ => none
  | c :: r, pos =>
    match sentMatchLen (c :: r) with
    | some len => some (pos + len)
    | none => sentSearchEnd r (pos + 1)

/-- Sentence-boundary extension (sliding_chunk_text.py lines 62–68): when the
naive cut is strictly inside the text, search the next `SENTENCE_LOOKAHEAD =
200` characters for a sentence end and extend the cut to just after it. -/
def sentenceExtend (t : Str) (e : ℕ) : ℕ :=
  if e < t.length then
    match sentSearchEnd (pySlice t e (min (e + 200) t.length)) 0 with
    | some mend => e + mend
    | none => e
  else e

/-- Word-split avoidance (sliding_chunk_text.py lines 70–77): if the cut is
inside the text and falls on a non-space character, back off to the last
space or newline within `WORD_BACKOFF = 40` characters, provided that leaves
a non-empty chunk (`cut_pos > start`). -/
def wordBackoff (t : Str) (start e : ℕ) : ℕ :=
  if e < t.length then
    match t.get? e with
    | some c =>
      if pyIsSpace c then e
      else
        let bl := max start (e - 40)
        let cut := max (pyRfind t ' ' bl e) (pyRfind t '\n' bl e)
        if (start : Int) < cut then cut.toNat else e
    | none => e
  else e

/-- One iteration's computation of `end` (sliding_chunk_text.py lines 58–82):
naive window end, optional sentence extension, word-split backoff, and the
minimum-chunk-size extension when the chunk is too small and not final. -/
def chunkEnd (t : Str) (cc : ℕ) (ps : Bool) (mcs : ℕ) (start : ℕ) : ℕ :=
  let e1 := min (start + cc) t.length
  let e2 := if ps then sentenceExtend t e1 else e1
  let e3 := wordBackoff t start e2
  if e3 - start < mcs && e3 < t.length then min (start + max mcs cc) t.length
  else e3

/-- The sliding advance (sliding_chunk_text.py lines 88–93): the next window
starts at `end - overlap_chars`, forced to `end` whenever that would not make
strict progress (which also covers Python's `max(0, ·)` clamp). -/
def nextStart (start e oc : ℕ) : ℕ :=
  if e - oc ≤ start then e else e - oc


/-- The `while start < L` loop of `sliding_chunk_text`
(sliding_chunk_text.py lines 57–99), returning the `(start, end)` window of
every iteration in order.  `fuel` is the number of further iterations that the
safety counter still allows (`10000 - seen` at entry): the source increments
`seen` after the iteration's body and breaks once it exceeds 10000, so the
iteration that runs when `fuel = 0` is the last one and at most `fuel + 1`
windows are produced.  The chunk a window emits is the stripped slice
`text[start:end].strip()`, appended only when non-empty (see
`sliding_chunk_text` below). -/
def chunkWindows (t : Str) (cc oc : ℕ) (ps : Bool) (mcs : ℕ) :
    ℕ → ℕ → List (ℕ × ℕ)
  | 0, start =>
    if start < t.length then [(start, chunkEnd t cc ps mcs start)] else []
  | Nat.succ fuel, start =>
    if start < t.length then
      (start, chunkEnd t cc ps mcs start) ::
        chunkWindows t cc oc ps mcs fuel
          (nextStart start (chunkEnd t cc ps mcs start) oc)
    else []

/-- Resolution of the `min_chunk_size` parameter
(sliding_chunk_text.py line 51): `min_chunk_size or max(1, chunk_chars // 4)`
treats `None` and `0` (Python falsiness) as absent. -/
def resolveMinChunk (chunk_chars : ℕ) : Option ℕ → ℕ
  | some m => if m = 0 then max 1 (chunk_chars / 4) else m
  | none => max 1 (chunk_chars / 4)

/-- Embedding of `sliding_chunk_text`
(src/utils/chuking_utils/sliding_chunk_text.py lines 14–101).  The source's
defaults are `chunk_chars = 3000`, `overlap_chars = 300`,
`preserve_sentences = True`, `min_chunk_size = None`; sizes are naturals.
The input is stripped first and an empty result returned if nothing remains;
each loop window then emits `text[start:end].strip()` when non-empty. -/
def sliding_chunk_text (text : Str) (chunk_chars overlap_chars : ℕ)
    (preserve_sentences : Bool) (min_chunk_size : Option ℕ) : List Str :=
  let t := pyStrip text
  if t.isEmpty then []
  else
    (chunkWindows t chunk_chars overlap_chars preserve_sentences
        (resolveMinChunk chunk_chars min_chunk_size) 10000 0).filterMap
      (fun w =>
        let c := pyStrip (pySlice t w.1 w.2)
        if c.isEmpty then none else some c)

/-- Claim C9: the chunker is a pure deterministic function — identical input
and configuration yield identical output — and whitespace-only (in particular
empty) input yields the empty sequence. -/
theorem chunk_deterministic_and_empty_on_whitespace
    (t t' : Str) (cc oc : ℕ) (ps : Bool) (m : Option ℕ) :
    (t = t' →
      sliding_chunk_text t cc oc ps m = sliding_chunk_text t' cc oc ps m) ∧
    (t.all pyIsSpace = true → sliding_chunk_text t cc oc ps m = []) := by
  constructor
  · intro h
    rw [h]
  · intro h
    have hd : List.dropWhile pyIsSpace t = [] := by
      rw [List.dropWhile_eq_nil_iff]
      intro x hx
      exact List.all_eq_true.mp h x hx
    unfold sliding_chunk_text pyStrip
    rw [hd]
    simp [List.rdropWhile]

/-- Witness for C9 at concrete inputs: determinism on "ab", and the empty
output on a whitespace-only string. -/
theorem chunk_deterministic_and_empty_on_whitespace_witness :
    sliding_chunk_text ("ab".toList) 3000 300 true none =
      sliding_chunk_text ("ab".toList) 3000 300 true none ∧
    sliding_chunk_text ("  ".toList) 3000 300 true none = [] :=
  ⟨(chunk_deterministic_and_empty_on_whitespace ("ab".toList) ("ab".toList)
      3000 300 true none).1 rfl,
   (chunk_deterministic_and_empty_on_whitespace ("  ".toList) ("  ".toList)
      3000 300 true none).2 (by decide)⟩

/-- Counterexample for claim C8 as stated: on input "ab cd" with
`chunk_chars = 2`, `overlap_chars = 0`, no sentence preservation and
`min_chunk_size = 1`, the chunks are "ab", "c", "d" — each chunk is stripped,
so the space between "ab" and "cd" is lost and concatenating the chunks (the
overlap is 0) does not reconstruct the original text. -/
theorem chunk_reconstruction_counterexample :
    sliding_chunk_text ("ab cd".toList) 2 0 false (some 1) =
      ["ab".toList, "c".toList, "d".toList] ∧
    (sliding_chunk_text ("ab cd".toList) 2 0 false (some 1)).flatten ≠
      "ab cd".toList := by
  refine ⟨by decide, by decide⟩

theorem pyStrip_within (s : Str) : pyStrip s <:+: s := by
  unfold pyStrip
  have h1 := List.rdropWhile_prefix pyIsSpace (List.dropWhile pyIsSpace s)
  have h2 := List.dropWhile_suffix (l := s) pyIsSpace
  exact h1.isInfix.trans h2.isInfix

theorem pySlice_within (t : Str) (lo hi : ℕ) : pySlice t lo hi <:+: t := by
  unfold pySlice
  have h1 := List.take_prefix (hi - lo) (t.drop lo)
  have h2 := List.drop_suffix lo t
  exact h1.isInfix.trans h2.isInfix

theorem nextStart_le (start e oc : ℕ) : nextStart start e oc ≤ e := by
  unfold nextStart
  split
  · exact Nat.le_refl e
  · exact Nat.sub_le e oc

theorem nextStart_overlap_le (start e oc : ℕ) :
    e - nextStart start e oc ≤ oc := by
  unfold nextStart
  split
  · omega
  · omega

theorem chunkWindows_head_start (t : Str) (cc oc : ℕ) (ps : Bool) (mcs : ℕ)
    (fuel start : ℕ) (y : ℕ × ℕ)
    (hy : (chunkWindows t cc oc ps mcs fuel start).head? = some y) :
    y.1 = start := by
  cases fuel with
  | zero =>
    rw [chunkWindows] at hy
    split at hy
    · simp only [List.head?_cons, Option.some.injEq] at hy
      rw [← hy]
    · simp at hy
  | succ fuel =>
    rw [chunkWindows] at hy
    split at hy
    · simp only [List.head?_cons, Option.some.injEq] at hy
      rw [← hy]
    · simp at hy

theorem chunkWindows_chain (t : Str) (cc oc : ℕ) (ps : Bool) (mcs : ℕ) :
    ∀ (fuel start : ℕ),
      List.Chain' (fun w1 w2 : ℕ × ℕ => w2.1 ≤ w1.2 ∧ w1.2 - w2.1 ≤ oc)
        (chunkWindows t cc oc ps mcs fuel start) := by
  intro fuel
  induction fuel with
  | zero =>
    intro start
    rw [chunkWindows]
    split
    · simp
    · simp
  | succ fuel ih =>
    intro start
    rw [chunkWindows]
    split
    · rw [List.chain'_cons']
      refine ⟨?_, ih _⟩
      intro y hy
      have h1 := chunkWindows_head_start t cc oc ps mcs fuel
        (nextStart start (chunkEnd t cc ps mcs start) oc) y hy
      rw [h1]
      exact ⟨nextStart_le start _ oc, nextStart_overlap_le start _ oc⟩
    · exact List.chain'_nil

theorem mem_sliding_chunk_text {text : Str} {cc oc : ℕ} {ps : Bool}
    {m : Option ℕ} {c : Str} (hc : c ∈ sliding_chunk_text text cc oc ps m) :
    ∃ w : ℕ × ℕ, c = pyStrip (pySlice (pyStrip text) w.1 w.2) ∧ c ≠ [] := by
  unfold sliding_chunk_text at hc
  simp only at hc
  split at hc
  · simp at hc
  · rw [List.mem_filterMap] at hc
    obtain ⟨w, _, hw⟩ := hc
    by_cases h2 : (pyStrip (pySlice (pyStrip text) w.1 w.2)).isEmpty
    · rw [if_pos h2] at hw
      exact absurd hw (by simp)
    · rw [if_neg h2] at hw
      obtain rfl := Option.some.inj hw
      refine ⟨w, rfl, ?_⟩
      simpa using h2

/-- Claim C8 (amended): every chunk the chunker emits is a non-empty
contiguous substring of the whitespace-stripped input, and consecutive loop
windows leave no gap and are overlap-bounded: each window starts no later
than the previous window's end, and the overlap `w1.2 - w2.1` between
adjacent windows is at most the configured `overlap_chars` (the advance is
`end - overlap_chars`, or `end` itself when forced, so the raw-window
overlap is `overlap_chars` or `0` — within the claim's overlap-plus-slack
bound).  Exact gap-free character coverage and reconstruction fail in
general because every chunk is whitespace-stripped at its boundaries and
inputs needing more than 10001 windows lose their tail. -/
theorem chunk_output_within_input_and_windows_gapfree
    (text : Str) (cc oc : ℕ) (ps : Bool) (m : Option ℕ) :
    (∀ (mcs fuel start : ℕ),
      List.Chain' (fun w1 w2 : ℕ × ℕ => w2.1 ≤ w1.2 ∧ w1.2 - w2.1 ≤ oc)
        (chunkWindows (pyStrip text) cc oc ps mcs fuel start)) ∧
    (∀ c ∈ sliding_chunk_text text cc oc ps m,
      c ≠ [] ∧ c <:+: pyStrip text) := by
  constructor
  · intro mcs fuel start
    exact chunkWindows_chain (pyStrip text) cc oc ps mcs fuel start
  · intro c hc
    obtain ⟨w, rfl, hne⟩ := mem_sliding_chunk_text hc
    exact ⟨hne, (pyStrip_within _).trans (pySlice_within (pyStrip text) w.1 w.2)⟩

/-- Witness for the amended C8 at a concrete input: on "ab cd" the loop
windows are gap-free with overlap bounded by the configured overlap 0, and
the chunk "ab" is non-empty and occurs contiguously in the input. -/
theorem chunk_output_within_input_and_windows_gapfree_witness :
    List.Chain' (fun w1 w2 : ℕ × ℕ => w2.1 ≤ w1.2 ∧ w1.2 - w2.1 ≤ 0)
      (chunkWindows (pyStrip ("ab cd".toList)) 2 0 false 1 10000 0) ∧
    ("ab".toList ≠ [] ∧ "ab".toList <:+: pyStrip ("ab cd".toList)) :=
  ⟨(chunk_output_within_input_and_windows_gapfree ("ab cd".toList) 2 0 false
      (some 1)).1 1 10000 0,
   (chunk_output_within_input_and_windows_gapfree ("ab cd".toList) 2 0 false
      (some 1)).2 ("ab".toList) (by decide)⟩

theorem chunkWindows_length_le (t : Str) (cc oc : ℕ) (ps : Bool) (mcs : ℕ) :
    ∀ (fuel start : ℕ),
      (chunkWindows t cc oc ps mcs fuel start).length ≤ fuel + 1 := by
  intro fuel
  induction fuel with
  | zero =>
    intro start
    rw [chunkWindows]
    split
    · simp
    · simp
  | succ fuel ih =>
    intro start
    rw [chunkWindows]
    split
    · simpa using ih (nextStart start (chunkEnd t cc ps mcs start) oc)
    · simp

/-- Claim C10 (amended): the chunker's loop runs at most 10001 iterations —
the safety counter is incremented after the body and the loop breaks once it
exceeds 10000, so the 10001st iteration is the last — hence every call
terminates with at most 10001 chunks, and any input that would need more
windows has its remaining tail silently dropped. -/
theorem chunk_loop_iteration_bound (text : Str) (cc oc : ℕ) (ps : Bool)
    (m : Option ℕ) :
    (sliding_chunk_text text cc oc ps m).length ≤ 10001 := by
  simp only [sliding_chunk_text]
  split
  · simp
  · calc (List.filterMap _ (chunkWindows (pyStrip text) cc oc ps
          (resolveMinChunk cc m) 10000 0)).length
        ≤ (chunkWindows (pyStrip text) cc oc ps
          (resolveMinChunk cc m) 10000 0).length := List.length_filterMap_le _ _
      _ ≤ 10001 := chunkWindows_length_le _ _ _ _ _ 10000 0

theorem replicate_get?_ne {N : ℕ} {c : Char} (hc : c ≠ 'a') (i : ℕ) :
    (List.replicate N 'a').get? i ≠ some c := by
  intro h
  have hm := List.get?_mem h
  rw [List.mem_replicate] at hm
  exact hc hm.2

theorem replicate_get?_lt {N i : ℕ} (h : i < N) :
    (List.replicate N 'a').get? i = some 'a' := by
  rw [List.get?_eq_getElem?]
  simp [List.getElem?_replicate, h]

theorem rfindGo_replicate {N : ℕ} {c : Char} (hc : c ≠ 'a') (lo : ℕ) :
    ∀ k, rfindGo (List.replicate N 'a') c lo k = -1 := by
  intro k
  induction k with
  | zero => rfl
  | succ k ih =>
    rw [rfindGo, if_neg (replicate_get?_ne hc (lo + k))]
    exact ih

theorem pyRfind_replicate {N : ℕ} {c : Char} (hc : c ≠ 'a') (lo hi : ℕ) :
    pyRfind (List.replicate N 'a') c lo hi = -1 :=
  rfindGo_replicate hc lo (hi - lo)

theorem wordBackoff_replicate {N : ℕ} (s : ℕ) :
    wordBackoff (List.replicate N 'a') s (s + 1) = s + 1 := by
  unfold wordBackoff
  rw [List.length_replicate]
  by_cases h1 : s + 1 < N
  · rw [if_pos h1, replicate_get?_lt h1]
    simp only [pyRfind_replicate (show ' ' ≠ 'a' by decide),
      pyRfind_replicate (show '\n' ≠ 'a' by decide),
      show pyIsSpace 'a' = false from rfl]
    rw [if_neg (by decide : ¬ (false = true))]
    rw [if_neg (by omega : ¬ ((s : Int) < max (-1) (-1)))]
  · rw [if_neg h1]

theorem chunkEnd_replicate {N : ℕ} (s : ℕ) (hs : s < N) :
    chunkEnd (List.replicate N 'a') 1 false 1 s = s + 1 := by
  unfold chunkEnd
  rw [List.length_replicate]
  rw [show min (s + 1) N = s + 1 from by omega]
  simp only [Bool.false_eq_true, if_false]
  rw [wordBackoff_replicate s]
  rw [show s + 1 - s = 1 from by omega]
  simp

theorem nextStart_one_zero (s : ℕ) : nextStart s (s + 1) 0 = s + 1 := by
  unfold nextStart
  rw [Nat.sub_zero, if_neg (by omega)]

theorem chunkWindows_stop (t : Str) (cc oc : ℕ) (ps : Bool) (mcs : ℕ)
    (fuel start : ℕ) (h : ¬ start < t.length) :
    chunkWindows t cc oc ps mcs fuel start = [] := by
  cases fuel with
  | zero => rw [chunkWindows, if_neg h]
  | succ fuel => rw [chunkWindows, if_neg h]

theorem chunkWindows_replicate {N : ℕ} :
    ∀ (fuel s : ℕ), s < N →
      chunkWindows (List.replicate N 'a') 1 0 false 1 fuel s =
        (List.range' s (min (N - s) (fuel + 1))).map (fun k => (k, k + 1)) := by
  intro fuel
  induction fuel with
  | zero =>
    intro s hs
    rw [chunkWindows, List.length_replicate, if_pos hs, chunkEnd_replicate s hs]
    rw [show min (N - s) 1 = 1 from by omega]
    rw [List.range'_succ]
    simp [List.range']
  | succ fuel ih =>
    intro s hs
    rw [chunkWindows, List.length_replicate, if_pos hs, chunkEnd_replicate s hs,
      nextStart_one_zero s]
    by_cases h1 : s + 1 < N
    · rw [ih (s + 1) h1]
      rw [show min (N - s) (fuel + 1 + 1) = min (N - (s + 1)) (fuel + 1) + 1 from
        by omega]
      rw [List.range'_succ]
      simp
    · rw [chunkWindows_stop _ 1 0 false 1 fuel (s + 1)
        (by rw [List.length_replicate]; exact h1)]
      rw [show min (N - s) (fuel + 1 + 1) = 1 from by omega]
      rw [List.range'_succ]
      simp [List.range']

theorem filterMap_length_all_some {α β : Type} (f : α → Option β) :
    ∀ l : List α, (∀ a ∈ l, ∃ b, f a = some b) →
      (l.filterMap f).length = l.length := by
  intro l
  induction l with
  | nil => intro _; rfl
  | cons a l ih =>
    intro h
    obtain ⟨b, hb⟩ := h a (List.mem_cons_self a l)
    rw [List.filterMap_cons, hb]
    simp only [List.length_cons]
    rw [ih (fun x hx => h x (List.mem_cons_of_mem a hx))]

theorem pySlice_replicate_one {N k : ℕ} (hk : k < N) :
    pySlice (List.replicate N 'a') k (k + 1) = ['a'] := by
  unfold pySlice
  rw [show k + 1 - k = 1 from by omega]
  rw [List.drop_replicate, List.take_replicate]
  rw [show min 1 (N - k) = 1 from by omega]
  rfl

theorem dropWhile_replicate_a (n : ℕ) :
    List.dropWhile pyIsSpace (List.replicate n 'a') = List.replicate n 'a' := by
  cases n with
  | zero => rfl
  | succ n =>
    rw [List.replicate_succ, List.dropWhile_cons,
      if_neg (by decide : ¬ (pyIsSpace 'a' = true))]

theorem pyStrip_replicate (n : ℕ) :
    pyStrip (List.replicate n 'a') = List.replicate n 'a' := by
  unfold pyStrip
  rw [dropWhile_replicate_a, List.rdropWhile, List.reverse_replicate,
    dropWhile_replicate_a, List.reverse_replicate]

/-- Counterexample for claim C10 as stated: the safety counter is checked
after it is incremented (`seen > 10000` after `seen += 1`), so the loop can
run 10001 iterations, not 10000.  On an input of 10002 copies of 'a' with
`chunk_chars = 1`, `overlap_chars = 0`, no sentence preservation and
`min_chunk_size = 1`, each iteration consumes exactly one character and emits
one chunk, and the chunker returns 10001 chunks — more than the 10000 the
claim allows (while the input's final character is indeed dropped). -/
theorem chunk_iteration_cap_counterexample :
    (sliding_chunk_text (List.replicate 10002 'a') 1 0 false (some 1)).length
      = 10001 ∧
    ¬ (sliding_chunk_text (List.replicate 10002 'a') 1 0 false
      (some 1)).length ≤ 10000 := by
  have hstrip : pyStrip (List.replicate 10002 'a') = List.replicate 10002 'a' :=
    pyStrip_replicate 10002
  have hlen : (sliding_chunk_text (List.replicate 10002 'a') 1 0 false
      (some 1)).length = 10001 := by
    simp only [sliding_chunk_text, hstrip]
    rw [if_neg (by simp [List.isEmpty_iff])]
    rw [show resolveMinChunk 1 (some 1) = 1 from rfl]
    rw [chunkWindows_replicate 10000 0 (by norm_num)]
    rw [show min (10002 - 0) (10000 + 1) = 10001 from by norm_num]
    rw [filterMap_length_all_some]
    · simp
    · intro a ha
      rw [List.mem_map] at ha
      obtain ⟨k, hk, rfl⟩ := ha
      rw [List.mem_range'_1] at hk
      refine ⟨['a'], ?_⟩
      simp only [pySlice_replicate_one (show k < 10002 from by omega)]
      rfl
  exact ⟨hlen, by omega⟩

/-! ## Failure recorder — src/utils/_default_persist_failure.py -/

/-- A clause (segment) as the loader and recorder see it: the `id` of the
pydantic `Clause` model (duck-typed via `getattr(clause_obj, "id", None)`,
so absent attributes are `none`) and its text.  Other fields play no role in
the control flow modelled here. -/
structure Clause where
  id : Option Str
  text : Str

/-- Decimal digits of a natural number, as Python string formatting
produces them. -/
def natDigits (n : ℕ) : Str := Nat.toDigits 10 n

/-- Numeric value of a non-empty string of decimal digits
(Python `int(m.group(1))`). -/
def digitsVal (ds : Str) : ℕ :=
  ds.foldl (fun a c => a * 10 + (c.toNat - '0'.toNat)) 0

/-- Match of the regex `clause_(\d+)_failed` anchored at the head of `s`:
the literal prefix, a maximal non-empty digit run, then the literal
`_failed`.  (Backtracking the greedy `\d+` can never help here because the
character after a shorter digit run is a digit, not an underscore.) -/
def parseAt (s : Str) : Option ℕ :=
  if ("clause_".toList).isPrefixOf s then
    let rest := s.drop 7
    let ds := rest.takeWhile Char.isDigit
    if ds.isEmpty then none
    else if ("_failed".toList).isPrefixOf (rest.drop ds.length) then
      some (digitsVal ds)
    else none
  else none

/-- `re.search(r"clause_(\d+)_failed", reason)`
(_default_persist_failure.py line 45): the captured index of the leftmost
match, if any. -/
def parseClauseFailed : Str → Option ℕ
  | [] => none
  | c :: r =>
    match parseAt (c :: r) with
    | some n => some n
    | none => parseClauseFailed r

/-- The parsed per-document failure file
(_default_persist_failure.py lines 18–29): the document id and the
`failed_clauses` mapping from clause key to its ordered list of failure
entries.  An entry is modelled by its `reason` string; the serialized clause
snapshot and the wall-clock timestamps are omitted, as no control flow
depends on them. -/
structure RecData where
  circular_id : Str
  failed_clauses : List (Str × List Str)

/-- `data["failed_clauses"].setdefault(clause_key, []).append(entry)`
(_default_persist_failure.py lines 100–101) on an insertion-ordered mapping. -/
def assocAppend : List (Str × List Str) → Str → Str → List (Str × List Str)
  | [], k, v => [(k, [v])]
  | (k', vs) :: r, k, v =>
    if k' = k then (k', vs ++ [v]) :: r else (k', vs) :: assocAppend r k v

/-- Embedding of `default_persist_failure`
(src/utils/_default_persist_failure.py lines 13–117), acting on the parsed
per-document file state (`none` = file absent).  It parses the failing clause
index out of `reason`; falls back to the sole clause when exactly one is
supplied; derives the clause key (`clause.id` unless `None` or empty —
Python `or`-falsiness — else `clause_<index>`, else a random
`clause_unknown_` key, whose random hex is the `uuid_hex` oracle argument);
and appends the entry under that key.  It never raises. -/
def default_persist_failure (circ_id : Str) (clauses : List Clause)
    (reason : Str) (uuid_hex : Str) (file : Option RecData) : RecData :=
  let fc : Option (ℕ × Clause) :=
    match parseClauseFailed reason with
    | some idx =>
      if h : idx < clauses.length then some (idx, clauses.get ⟨idx, h⟩)
      else none
    | none =>
      match clauses with
      | [c] => some (0, c)
      | _ => none
  let key : Str :=
    match fc with
    | some (idx, c) =>
      match c.id with
      | some s =>
        if s.isEmpty then "clause_".toList ++ natDigits idx else s
      | none => "clause_".toList ++ natDigits idx
    | none => "clause_unknown_".toList ++ uuid_hex
  let data : RecData :=
    match file with
    | some d => d
    | none => ⟨circ_id, []⟩
  ⟨data.circular_id, assocAppend data.failed_clauses key reason⟩

/-- Look up the entry list stored under `key` in a recorder file. -/
def recLookup (file : Option RecData) (key : Str) : Option (List Str) :=
  match file with
  | none => none
  | some d => d.failed_clauses.lookup key

/-! ## Episode loader — src/utils/ingest_utils.py and src/utils/clause_ingest.py -/

/-- The Python exception the loader itself can raise: the `NameError`
produced by evaluating the unbound name `i` inside the metadata- and
bulk-failure handlers of `ingest_models_as_episodes`
(src/utils/ingest_utils.py lines 93–96 and 111–114: the f-string
`f"clause_{i}_failed: {e}"` evaluates `i` before `persist_failure_fn` is
called, raising NameError, and the inner `except` clause passes `i` to
`log.exception`, raising NameError again, which propagates). -/
inductive PyErr where
  | nameError
deriving DecidableEq

/-- Inputs of one `ingest_models_as_episodes` run.  The external Graphiti
client and the retry wrapper around each call are modelled by their
observable outcome: `metaRes` is the outcome of the retry-wrapped metadata
episode load, `clauseRes i` the outcome of `add_clause_episode` for clause
`i`, `hasBulkAttr` whether `hasattr(graphiti, "add_episode_bulk")` holds, and
`bulkBatchRes k` the outcome of the `k`-th wrapped bulk-batch call when that
attribute exists.  `uuids` is the oracle of random hex strings for the
recorder's fallback keys. -/
structure IngestInput where
  circ_id : Str
  clauses : List Clause
  metaRes : Except Str Unit
  clauseRes : ℕ → Except Str Unit
  hasBulkAttr : Bool
  bulkBatchRes : ℕ → Except Str Unit
  uuids : ℕ → Str

/-- Observable outcome of one `ingest_models_as_episodes` run: whether the
coroutine returned or raised; the counters `n_ok`, `n_fail`, `n_total` it
logs at the end; the clause indices attempted sequentially; the bulk batches
actually issued to `graphiti.add_episode_bulk`; the number of circuit-breaker
cooldown pauses performed (the breaker block at ingest_utils.py lines 176–179
is commented out in the source, so the loop never pauses and this is always
0); the recorder file state; and the number of completed
`persist_failure_fn` calls. -/
structure IngestResult where
  outcome : Except PyErr Unit
  nOk : ℕ
  nFail : ℕ
  nTotal : ℕ
  seqAttempts : List ℕ
  bulkCalls : List ℕ
  pauses : ℕ
  recFile : Option RecData
  persists : ℕ

/-- The message of the `AttributeError` that `_do_batch_call` raises when the
client lacks `add_episode_bulk` (src/utils/clause_ingest.py lines 130–131). -/
def attrErrMsg : Str :=
  "Graphiti client does not implement add_episode_bulk".toList

/-- Number of batches `range(0, total, 50)` yields
(src/utils/clause_ingest.py lines 91 and 119). -/
def batchCount (total : ℕ) : ℕ := (total + 49) / 50

/-- Embedding of the batch loop of `add_clause_episode_in_bulk`
(src/utils/clause_ingest.py lines 118–140): for each batch, the wrapped call
first checks `hasattr(graphiti, "add_episode_bulk")` and raises
`AttributeError` *before* any client call when the capability is absent (that
message matches no retryable keyword, so the retry wrapper re-raises it at
once); otherwise the batch is issued and its outcome is `batchRes k`.
Returns the issued batch indices and the error that escaped the helper, if
any. -/
def bulkHelperGo (cap : Bool) (batchRes : ℕ → Except Str Unit) :
    ℕ → ℕ → List ℕ × Option Str
  | 0, _ => ([], none)
  | Nat.succ rem, k =>
    if cap then
      match batchRes k with
      | Except.ok _ =>
        let r := bulkHelperGo cap batchRes rem (k + 1)
        (k :: r.1, r.2)
      | Except.error e => ([k], some e)
    else ([], some attrErrMsg)

/-- State of the sequential per-clause loop
(src/utils/ingest_utils.py lines 158–179): the consecutive-failure counter,
success and failure counts, attempted indices, recorder file, and completed
persist calls. -/
structure SeqState where
  cf : ℕ
  nOk : ℕ
  nFail : ℕ
  attempts : List ℕ
  recFile : Option RecData
  persists : ℕ

/-- One iteration of the sequential loop
(src/utils/ingest_utils.py lines 159–179) for clause index `i`: on success
reset the consecutive-failure counter and count it; on failure bump both
counters and persist the failure under reason `clause_<i>_failed: <e>` (here
the loop variable `i` is bound, so the handler completes and
`default_persist_failure` never raises).  The circuit-breaker block that
would follow (lines 176–179) is commented out in the source, so no pause is
ever performed. -/
def seqStep (inp : IngestInput) (st : SeqState) (i : ℕ) : SeqState :=
  match inp.clauseRes i with
  | Except.ok _ =>
    { st with cf := 0, nOk := st.nOk + 1, attempts := st.attempts ++ [i] }
  | Except.error e =>
    { st with
      cf := st.cf + 1, nFail := st.nFail + 1,
      attempts := st.attempts ++ [i],
      recFile := some (default_persist_failure inp.circ_id inp.clauses
        ("clause_".toList ++ natDigits i ++ "_failed: ".toList ++ e)
        (inp.uuids st.persists) st.recFile),
      persists := st.persists + 1 }

/-- Embedding of `ingest_models_as_episodes`
(src/utils/ingest_utils.py lines 40–183) for one document, with `rec0` the
recorder file state on entry.

* Metadata phase (lines 76–96): on failure, the handler's f-string evaluates
  the unbound name `i`, so a `NameError` propagates out of the coroutine:
  nothing is recorded and no clause is loaded.
* Bulk phase (lines 99–115), only when `bulk` is requested: the module-level
  helper `add_clause_episode_in_bulk` always exists (it is defined
  unconditionally in `utils/clause_ingest.py`), so the `getattr` probe always
  finds it and the `graphiti.add_episode_bulk`-probing branch of lines
  116–155 is dead code.  Helper success loads everything; helper failure hits
  the same unbound-`i` handler and raises `NameError`.
* Sequential phase (lines 158–179), when bulk was not requested (after a bulk
  failure the `NameError` aborts the run first): fold `seqStep` over the
  clause indices in order. -/
def ingest_models_as_episodes (inp : IngestInput) (bulk : Bool)
    (rec0 : Option RecData) : IngestResult :=
  let n := inp.clauses.length
  match inp.metaRes with
  | Except.error _ =>
    ⟨Except.error PyErr.nameError, 0, 0, n, [], [], 0, rec0, 0⟩
  | Except.ok _ =>
    if bulk then
      match bulkHelperGo inp.hasBulkAttr inp.bulkBatchRes (batchCount n) 0 with
      | (calls, none) => ⟨Except.ok (), n, 0, n, [], calls, 0, rec0, 0⟩
      | (calls, some _) =>
        ⟨Except.error PyErr.nameError, 0, 0, n, [], calls, 0, rec0, 0⟩
    else
      let st := (List.range n).foldl (seqStep inp) ⟨0, 0, 0, [], rec0, 0⟩
      ⟨Except.ok (), st.nOk, st.nFail, n, st.attempts, [], 0, st.recFile, st.persists⟩

/-- The four-segment circuit-breaker scenario of claim C1: metadata load
succeeds, the per-segment outcomes are [fail, fail, fail, succeed], under the
default `MAX_CONSECUTIVE_FAILURES = 2`. -/
def breakerScenario : IngestInput :=
  ⟨"doc1".toList, List.replicate 4 ⟨none, "s".toList⟩, Except.ok (),
   (fun i => if i < 3 then Except.error ("boom".toList) else Except.ok ()),
   true, (fun _ => Except.ok ()), (fun _ => [])⟩

/-- Claim C1 (the code contradicts it): on per-segment outcomes
[fail, fail, fail, succeed] the loader performs zero circuit-breaker pauses —
the breaker block at ingest_utils.py lines 176–179 is commented out, and the
tunables `MAX_CONSECUTIVE_FAILURES` and `LONG_BACKOFF_SECONDS` are defined
but never used — rather than the exactly one pause the claim requires.  The
run otherwise completes normally with 1 success and 3 failures. -/
theorem ingest_circuit_breaker_never_pauses :
    (ingest_models_as_episodes breakerScenario false none).pauses = 0 ∧
    ¬ (ingest_models_as_episodes breakerScenario false none).pauses = 1 ∧
    (ingest_models_as_episodes breakerScenario false none).nOk = 1 ∧
    (ingest_models_as_episodes breakerScenario false none).nFail = 3 ∧
    (ingest_models_as_episodes breakerScenario false none).outcome =
      Except.ok () := by
  refine ⟨by decide, by decide, by decide, by decide, by rfl⟩

/-- Claim C2 (the code contradicts it): whenever the metadata episode load
fails, the loader does not record the failure and does not proceed to the
segments — it raises `NameError` (the handler of ingest_utils.py lines 90–96
evaluates the unbound loop variable `i`), leaving the recorder file
untouched, zero persists, zero sequential attempts and zero bulk calls. -/
theorem ingest_meta_failure_aborts
    (circ : Str) (clauses : List Clause) (e : Str)
    (cres : ℕ → Except Str Unit) (cap : Bool) (bres : ℕ → Except Str Unit)
    (uu : ℕ → Str) (bulk : Bool) (rec0 : Option RecData) :
    ingest_models_as_episodes
        ⟨circ, clauses, Except.error e, cres, cap, bres, uu⟩ bulk rec0 =
      ⟨Except.error PyErr.nameError, 0, 0, clauses.length, [], [], 0, rec0,
        0⟩ :=
  rfl

theorem bulkHelperGo_no_capability (bres : ℕ → Except Str Unit) (m k : ℕ) :
    bulkHelperGo false bres (m + 1) k = ([], some attrErrMsg) := by
  rw [bulkHelperGo]
  simp

/-- Claim C3 (the code contradicts it): with bulk mode requested against a
client lacking `add_episode_bulk` and at least one segment, the loader issues
zero bulk calls (the capability check raises before any client call) but then
raises `NameError` out of the loader (the bulk-failure handler of
ingest_utils.py lines 109–114 evaluates the unbound `i`) and performs zero
sequential loads — instead of silently falling back to one sequential load
per segment. -/
theorem ingest_bulk_capability_missing_raises
    (circ : Str) (c0 : Clause) (cs : List Clause)
    (cres : ℕ → Except Str Unit) (bres : ℕ → Except Str Unit)
    (uu : ℕ → Str) (rec0 : Option RecData) :
    ingest_models_as_episodes
        ⟨circ, c0 :: cs, Except.ok (), cres, false, bres, uu⟩ true rec0 =
      ⟨Except.error PyErr.nameError, 0, 0, (c0 :: cs).length, [], [], 0, rec0,
        0⟩ := by
  have h1 : batchCount (c0 :: cs).length = (batchCount (c0 :: cs).length - 1) + 1 := by
    unfold batchCount
    simp only [List.length_cons]
    omega
  have hb : bulkHelperGo false bres (batchCount (c0 :: cs).length) 0 =
      ([], some attrErrMsg) := by
    rw [h1, bulkHelperGo_no_capability]
  unfold ingest_models_as_episodes
  simp only [hb]
  simp

/-- The five-segment sequential scenario of claim C4: metadata load succeeds
and segment 2 always raises a fatal error with message `e`, all others
succeed; the clauses carry no `id` attribute, so the recorder key falls back
to `clause_<index>`. -/
def fatalSegmentScenario (e : Str) : IngestInput :=
  ⟨"doc".toList, List.replicate 5 ⟨none, "s".toList⟩, Except.ok (),
   (fun i => if i = 2 then Except.error e else Except.ok ()),
   true, (fun _ => Except.ok ()), (fun _ => [])⟩

/-- Claim C4: in the sequential fallback on five segments where segment 2
always raises a fatal error (any message `e`) and the rest succeed, the
loader reports 4 successes and 1 failure, completes normally, and the
recorder file holds exactly one entry keyed to segment index 2 — the key
`clause_2` derived from the reason pattern `clause_<index>_failed` (the
spec's `segment_<index>_failed` in its renaming of clause to segment) —
whose recorded reason is `clause_2_failed: <e>`. -/
theorem ingest_sequential_records_failed_segment (e : Str) :
    (ingest_models_as_episodes (fatalSegmentScenario e) false none).nOk = 4 ∧
    (ingest_models_as_episodes (fatalSegmentScenario e) false none).nFail = 1 ∧
    (ingest_models_as_episodes (fatalSegmentScenario e) false none).outcome =
      Except.ok () ∧
    recLookup
        (ingest_models_as_episodes (fatalSegmentScenario e) false none).recFile
        ("clause_2".toList) =
      some ["clause_2_failed: ".toList ++ e] ∧
    (ingest_models_as_episodes (fatalSegmentScenario e) false none).persists
      = 1 := by
  refine ⟨by rfl, by rfl, by rfl, by with_unfolding_all rfl, by rfl⟩
